import Mathlib

/-!
Verification development for the go-concurrency order-processing repository.

The repository consists of a sequential driver (01-sequential-synchronous/main.go)
and five goroutine demo scenarios (02-goroutines-and-waitgroups/main.go) built
around a counting completion barrier (sync.WaitGroup).

We shallowly embed:
  * the Order data type and the canned order list shared by both files;
  * each scenario's coordinator body as a list of coordinator statements
    (register = wg.Add(1), launch = go func, sleepWait = time.Sleep used as a
    wait, await = wg.Wait(), call = direct processOrder invocation), with every
    launched goroutine body embedded as a list of task statements (Go defer
    semantics modelled explicitly);
  * the WaitGroup counter semantics (documented panic when the counter would
    go negative);
  * an interleaving transition system for the register/launch/signal/await
    pattern of goroutinesWithWaitGroup, over which the barrier safety
    properties are proved;
  * an idealized timed semantics in which simulated work of d seconds takes d
    time units and coordinator bookkeeping is instantaneous.
-/

/-- The Order struct: an integer ID and a preparation time. `time.Duration`
values in the source are whole seconds; we model them as the number of
seconds (a `Nat`). -/
structure Order where
  id : Nat
  prepTime : Nat
deriving DecidableEq, Repr

/-- The canned order list used by both main.go files:
ids 1..5 with prep times 2,3,1,4,2 seconds. -/
def orders : List Order :=
  [⟨1, 2⟩, ⟨2, 3⟩, ⟨3, 1⟩, ⟨4, 4⟩, ⟨5, 2⟩]

/-- How a goroutine body obtains the Order it works on.
`byValue o` models a descriptor passed by value at launch time
(`go func(o Order) {...}(order)`, or a value constructed privately inside the
body); `loopVarRef` models a closure that references the loop variable
`order` of the surrounding `for _, order := range orders` loop. -/
inductive Capture where
  | byValue (o : Order)
  | loopVarRef
deriving DecidableEq, Repr

/-- An atomic action a goroutine body can perform: the simulated work
(processOrder: print, sleep for the prep time, print), a barrier signal
(wg.Done()), or a barrier register (wg.Add(1)) — the last never occurs inside
a task in this repository, which the theorems below establish. -/
inductive TaskAct where
  | work (c : Capture)
  | signal
  | register
deriving DecidableEq, Repr

/-- A statement of a goroutine body: `deferAct a` registers action `a` to run
on function exit (Go `defer`), `act a` performs `a` immediately, `ret` is an
early return. -/
inductive TStmt where
  | deferAct (a : TaskAct)
  | act (a : TaskAct)
  | ret
deriving DecidableEq, Repr

/-- A statement of a coordinator (main-goroutine) body. -/
inductive CoStmt where
  | register
  | launch (body : List TStmt)
  | sleepWait (d : Nat)
  | await
  | call (o : Order)
deriving DecidableEq, Repr

/-- The goroutine body used by the WaitGroup scenarios:
`defer wg.Done()` followed by the work on the captured descriptor. -/
def wgTaskBody (c : Capture) : List TStmt :=
  [TStmt.deferAct TaskAct.signal, TStmt.act (TaskAct.work c)]

/-- Scenario 3, goroutinesWithWaitGroup: per order, wg.Add(1) then
`go func(o Order) { defer wg.Done(); processOrder(o) }(order)` — descriptor
passed by value — and finally wg.Wait(). -/
def goroutinesWithWaitGroup : List CoStmt :=
  (orders.flatMap fun o => [CoStmt.register, CoStmt.launch (wgTaskBody (Capture.byValue o))])
    ++ [CoStmt.await]

/-- Scenario 5, goroutineRuntimeInfo: per order, wg.Add(1) then
`go func() { defer wg.Done(); processOrder(order) }()` — the closure captures
the loop variable `order` by reference, no value parameter — and finally
wg.Wait(). -/
def goroutineRuntimeInfo : List CoStmt :=
  (orders.flatMap fun _ => [CoStmt.register, CoStmt.launch (wgTaskBody Capture.loopVarRef)])
    ++ [CoStmt.await]

/-- Scenario 1, simpleGoroutine: one unregistered goroutine on order {1, 2s},
then `time.Sleep(3 * time.Second)` standing in for synchronization. -/
def simpleGoroutine : List CoStmt :=
  [CoStmt.launch [TStmt.act (TaskAct.work (Capture.byValue ⟨1, 2⟩))],
   CoStmt.sleepWait 3]

/-- Scenario 2, multipleGoroutines: per order an unregistered
`go processOrder(order)` (the range value is passed by value as the call
argument), then `time.Sleep(5 * time.Second)` standing in for
synchronization. -/
def multipleGoroutines : List CoStmt :=
  (orders.flatMap fun o => [CoStmt.launch [TStmt.act (TaskAct.work (Capture.byValue o))]])
    ++ [CoStmt.sleepWait 5]

/-- Scenario 4, anonymousGoroutines: two registered goroutines — the rush
order {1, 2s} constructed privately inside the body, and the VIP order
{2, 1s} passed by value as a parameter — then wg.Wait(). -/
def anonymousGoroutines : List CoStmt :=
  [CoStmt.register, CoStmt.launch (wgTaskBody (Capture.byValue ⟨1, 2⟩)),
   CoStmt.register, CoStmt.launch (wgTaskBody (Capture.byValue ⟨2, 1⟩)),
   CoStmt.await]

/-- The sequential driver (01-sequential-synchronous main, also scenario 0
sequentialProcessing of file 02): processOrder called directly, in order. -/
def sequentialProcessing : List CoStmt :=
  orders.map CoStmt.call

/-- Go defer semantics for a goroutine body: statements execute in order,
`deferAct` pushes its action onto a LIFO defer stack, `ret` (or falling off
the end) stops the body and runs the defer stack. Returns the list of
actions actually executed, in execution order. `ds` is the current defer
stack (most recently deferred first). -/
def runBody : List TStmt → List TaskAct → List TaskAct
  | [], ds => ds
  | TStmt.ret :: _, ds => ds
  | TStmt.deferAct a :: rest, ds => runBody rest (a :: ds)
  | TStmt.act a :: rest, ds => a :: runBody rest ds

/-- The actions a goroutine body executes, starting from an empty defer
stack. -/
def taskTrace (b : List TStmt) : List TaskAct :=
  runBody b []

/-- Whether a task action is a barrier signal (wg.Done()). -/
def isSignal : TaskAct → Bool
  | TaskAct.signal => true
  | _ => false

/-- Whether a task action is a barrier register (wg.Add(1)). -/
def isRegisterAct : TaskAct → Bool
  | TaskAct.register => true
  | _ => false

/-- Number of barrier signals in an executed action trace. -/
def signalCount (tr : List TaskAct) : Nat :=
  tr.countP isSignal

/-- Insert an early `return` before the k-th statement of a body fragment
(k past the end appends the return at the end, which is the normal exit). -/
def insertRet (k : Nat) (b : List TStmt) : List TStmt :=
  b.take k ++ TStmt.ret :: b.drop k

/-- The action mentioned by a body statement, if any. -/
def stmtAct : TStmt → Option TaskAct
  | TStmt.deferAct a => some a
  | TStmt.act a => some a
  | TStmt.ret => none

/-- A coordinator statement other than a launch never registers inside a
task; a launch does iff its body mentions a register action. -/
def launchBodyNoRegister : CoStmt → Bool
  | CoStmt.launch b => b.all fun st => !((stmtAct st).any isRegisterAct)
  | _ => true

/-- No goroutine body launched by the program contains a wg.Add. -/
def noRegisterInsideTasks (p : List CoStmt) : Bool :=
  p.all launchBodyNoRegister

/-- Every wg.Add(1) issued by the coordinator is immediately followed by the
launch of the corresponding goroutine (register strictly before launch,
issued by the coordinating thread). -/
def registersPrecedeLaunch : List CoStmt → Bool
  | [] => true
  | CoStmt.register :: CoStmt.launch _ :: rest => registersPrecedeLaunch rest
  | CoStmt.register :: _ => false
  | _ :: rest => registersPrecedeLaunch rest

/-- Every launch in the program is immediately preceded by its wg.Add(1)
(no unregistered goroutines). -/
def launchesRegistered : List CoStmt → Bool
  | [] => true
  | CoStmt.register :: CoStmt.launch _ :: rest => launchesRegistered rest
  | CoStmt.launch _ :: _ => false
  | _ :: rest => launchesRegistered rest

/-- The coordinator waits by sleeping a fixed duration somewhere in the
program. -/
def usesSleepWait (p : List CoStmt) : Bool :=
  p.any fun s => match s with
    | CoStmt.sleepWait _ => true
    | _ => false

/-- The coordinator blocks on the barrier (wg.Wait()) somewhere in the
program. -/
def usesAwait (p : List CoStmt) : Bool :=
  p.any fun s => match s with
    | CoStmt.await => true
    | _ => false

/-- The bodies of the goroutines a program launches, in launch order. -/
def launchBodies (p : List CoStmt) : List (List TStmt) :=
  p.filterMap fun s => match s with
    | CoStmt.launch b => some b
    | _ => none

/-- The capture each launched goroutine works on, in launch order (each
WaitGroup-scenario body performs exactly one work action). -/
def launchCaptures (p : List CoStmt) : List Capture :=
  (launchBodies p).flatMap fun b =>
    b.filterMap fun st => match stmtAct st with
      | some (TaskAct.work c) => some c
      | _ => none

/-- The descriptor a task actually observes: a by-value capture always
yields the private copy taken at launch time; a loop-variable reference
yields whatever the shared loop slot holds at the moment the task reads it
(pre-Go-1.22 shared loop variable semantics). -/
def resolveCapture (slot : Order) : Capture → Order
  | Capture.byValue o => o
  | Capture.loopVarRef => slot

/-- The descriptors the launched tasks observe, given for each task (by
launch index) the value the shared loop slot holds when that task reads
it. -/
def observedUnder (p : List CoStmt) (slot : Nat → Order) : List Order :=
  (launchCaptures p).enum.map fun kc => resolveCapture (slot kc.1) kc.2

/-- Idealized time an executed task action takes: simulated work sleeps for
the observed descriptor's prep time; barrier operations are instantaneous. -/
def actTime (slot : Order) : TaskAct → Nat
  | TaskAct.work c => (resolveCapture slot c).prepTime
  | _ => 0

/-- Idealized duration of a goroutine body: the sum of the times of the
actions it executes. -/
def taskDuration (slot : Order) (b : List TStmt) : Nat :=
  ((taskTrace b).map (actTime slot)).sum

/-- Idealized timed run of a coordinator body. `now` is the coordinator's
clock, `pm` the latest completion time among goroutines launched so far.
Register and launch are instantaneous; a launch at time `now` schedules its
body to complete at `now + duration`; sleepWait advances the clock; await
blocks until every launched goroutine has completed; a direct call blocks
for the order's prep time. Returns the time at which the coordinator
finishes the body. -/
def runTimed (slot : Order) : List CoStmt → Nat → Nat → Nat
  | [], now, _ => now
  | CoStmt.register :: rest, now, pm => runTimed slot rest now pm
  | CoStmt.launch b :: rest, now, pm =>
      runTimed slot rest now (max pm (now + taskDuration slot b))
  | CoStmt.sleepWait d :: rest, now, pm => runTimed slot rest (now + d) pm
  | CoStmt.await :: rest, now, pm => runTimed slot rest (max now pm) pm
  | CoStmt.call o :: rest, now, pm => runTimed slot rest (now + o.prepTime) pm

/-- Completion time of a coordinator body started at time 0 with no
goroutines outstanding. -/
def completionTime (slot : Order) (p : List CoStmt) : Nat :=
  runTimed slot p 0 0

/-- An observable event of the sequential driver: processOrder prints a
start line, sleeps, then prints a completion line with the time taken. -/
inductive Ev where
  | start (id : Nat)
  | finish (id : Nat) (took : Nat)
deriving DecidableEq, Repr

/-- The observable trace of one processOrder call: start message, then
(after the blocking sleep) the completion message. -/
def processOrderTrace (o : Order) : List Ev :=
  [Ev.start o.id, Ev.finish o.id o.prepTime]

/-- The trace of the sequential driver's loop
`for _, order := range orders { processOrder(order) }`, modelled as a left
fold accumulating each call's trace. -/
def seqMainTrace (os : List Order) : List Ev :=
  os.foldl (fun acc o => acc ++ processOrderTrace o) []

/-- The order id started by an event, if it is a start event. -/
def evStartId : Ev → Option Nat
  | Ev.start i => some i
  | _ => none

/-- A trace in which every started order runs to completion before the next
one starts: a concatenation of adjacent start/finish pairs with matching
ids. -/
inductive SeqNested : List Ev → Prop where
  | nil : SeqNested []
  | cons (i d : Nat) {t : List Ev} :
      SeqNested t → SeqNested (Ev.start i :: Ev.finish i d :: t)

/-- Modelled from the spec: the counter semantics of Go's sync.WaitGroup,
whose implementation is standard-library code not part of this repository.
Add(delta) adjusts the counter and, as the spec's negative-count guard
requires, raises a contract-violation error (in Go, a panic with
"sync: negative WaitGroup counter") instead of storing a negative value. -/
def wgAdd (c delta : Int) : Except String Int :=
  if c + delta < 0 then Except.error "sync: negative WaitGroup counter"
  else Except.ok (c + delta)

/-- A WaitGroup counter operation: wg.Add(1) or wg.Done(). -/
inductive WgOp where
  | add1
  | done1
deriving DecidableEq, Repr

/-- The counter delta of a WaitGroup operation (Done() is Add(-1)). -/
def wgDelta : WgOp → Int
  | WgOp.add1 => 1
  | WgOp.done1 => -1

/-- Apply one WaitGroup operation; once a contract violation has been
raised it persists. -/
def wgApply (r : Except String Int) (op : WgOp) : Except String Int :=
  match r with
  | Except.error e => Except.error e
  | Except.ok c => wgAdd c (wgDelta op)

/-- Run a sequence of WaitGroup operations from a fresh zero counter. -/
def wgRun (ops : List WgOp) : Except String Int :=
  ops.foldl wgApply (Except.ok 0)

/-- State of the goroutinesWithWaitGroup synchronization pattern with a
batch of N registered tasks: `regs` counts wg.Add(1) calls issued by the
coordinator, `launches` counts goroutines launched, `signaled` is the set of
tasks whose deferred wg.Done() has executed, `counter` is the WaitGroup
counter, and `waitReturned` records whether wg.Wait() has returned. -/
structure WgState (N : Nat) where
  regs : Nat
  launches : Nat
  signaled : Finset (Fin N)
  counter : Int
  waitReturned : Bool

/-- The initial state: nothing registered, launched or signaled; counter
zero; the coordinator has not passed wg.Wait(). -/
def initState (N : Nat) : WgState N :=
  ⟨0, 0, ∅, 0, false⟩

/-- One step of any interleaved schedule of the goroutinesWithWaitGroup
pattern. The coordinator alternates wg.Add(1) and `go ...` per loop
iteration (register requires regs = launches, launch requires one more
register than launches) and only then calls wg.Wait(); each launched task
may execute its wg.Done() at most once, at any time after its launch;
wg.Wait() returns only when the counter is zero. Task signal steps
interleave freely with coordinator steps. -/
inductive WgTrans (N : Nat) : WgState N → WgState N → Prop where
  | register (s : WgState N) (h1 : s.regs = s.launches) (h2 : s.regs < N)
      (h3 : s.waitReturned = false) :
      WgTrans N s { s with regs := s.regs + 1, counter := s.counter + 1 }
  | launch (s : WgState N) (h1 : s.launches < s.regs)
      (h2 : s.waitReturned = false) :
      WgTrans N s { s with launches := s.launches + 1 }
  | signal (s : WgState N) (i : Fin N) (h1 : (i : Nat) < s.launches)
      (h2 : i ∉ s.signaled) :
      WgTrans N s { s with signaled := insert i s.signaled,
                            counter := s.counter - 1 }
  | wait (s : WgState N) (h1 : s.regs = N) (h2 : s.launches = N)
      (h3 : s.counter = 0) (h4 : s.waitReturned = false) :
      WgTrans N s { s with waitReturned := true }

/-- States reachable from the initial state under some interleaving. -/
inductive Reachable (N : Nat) : WgState N → Prop where
  | init : Reachable N (initState N)
  | step {s t : WgState N} : Reachable N s → WgTrans N s t → Reachable N t

/-- The inductive invariant of the pattern: coordinator program order
(launches ≤ regs ≤ launches + 1, regs ≤ N), only launched tasks have
signaled, the counter equals registrations minus signals, and once
wg.Wait() has returned the whole batch was registered and has signaled. -/
def WgInv (N : Nat) (s : WgState N) : Prop :=
  s.launches ≤ s.regs ∧ s.regs ≤ N ∧ s.regs ≤ s.launches + 1 ∧
  (∀ i ∈ s.signaled, (i : Nat) < s.launches) ∧
  s.counter = (s.regs : Int) - (s.signaled.card : Int) ∧
  (s.waitReturned = true → s.regs = N ∧ s.signaled.card = N)

/-- Go's wg.Wait() returns without blocking precisely when the counter is
already zero at call time. -/
def awaitReturnsImmediately {N : Nat} (s : WgState N) : Prop :=
  s.counter = 0

/-- A set of task indices all below a bound L has at most L elements. -/
theorem card_le_of_forall_lt {N L : Nat} (t : Finset (Fin N))
    (hb : ∀ i ∈ t, (i : Nat) < L) : t.card ≤ L := by
  have himg : t.image (fun i : Fin N => (i : Nat)) ⊆ Finset.range L := by
    intro x hx
    simp only [Finset.mem_image] at hx
    obtain ⟨i, hi, rfl⟩ := hx
    exact Finset.mem_range.mpr (hb i hi)
  calc t.card = (t.image (fun i : Fin N => (i : Nat))).card :=
        (Finset.card_image_of_injective t Fin.val_injective).symm
    _ ≤ (Finset.range L).card := Finset.card_le_card himg
    _ = L := Finset.card_range L

/-- The invariant holds in every reachable state of the
goroutinesWithWaitGroup pattern. -/
theorem reachable_inv {N : Nat} {s : WgState N} (h : Reachable N s) :
    WgInv N s := by
  induction h with
  | init =>
      refine ⟨Nat.le_refl 0, Nat.zero_le N, Nat.le_succ 0, ?_, ?_, ?_⟩
      · intro i hi
        simp [initState] at hi
      · simp [initState]
      · intro hw
        simp [initState] at hw
  | step _ htr ih =>
      obtain ⟨h1, h2, h3, h4, h5, h6⟩ := ih
      cases htr with
      | register hr1 hr2 hr3 =>
          unfold WgInv
          dsimp only
          refine ⟨by omega, by omega, by omega, h4, by push_cast; omega, ?_⟩
          intro hw
          have := (h6 hw).1
          omega
      | launch hl1 hl2 =>
          unfold WgInv
          dsimp only
          refine ⟨by omega, h2, by omega, ?_, h5, h6⟩
          intro i hi
          exact Nat.lt_succ_of_lt (h4 i hi)
      | signal i hs1 hs2 =>
          unfold WgInv
          dsimp only
          refine ⟨h1, h2, h3, ?_, ?_, ?_⟩
          · intro j hj
            rcases Finset.mem_insert.mp hj with hji | hjm
            · exact hji ▸ hs1
            · exact h4 j hjm
          · rw [Finset.card_insert_of_not_mem hs2]
            push_cast
            omega
          · intro hw
            exfalso
            have hcard := (h6 hw).2
            have huniv := Finset.eq_univ_of_card _
              (hcard.trans (Fintype.card_fin N).symm)
            exact hs2 (by rw [huniv]; exact Finset.mem_univ i)
      | wait hw1 hw2 hw3 hw4 =>
          unfold WgInv
          dsimp only
          refine ⟨h1, h2, h3, h4, h5, ?_⟩
          intro _
          refine ⟨hw1, ?_⟩
          rw [h5] at hw3
          omega

/-- C1: for every batch of N registered tasks (N ≥ 0), in any reachable
state of any interleaved schedule of the goroutinesWithWaitGroup pattern in
which the coordinator's wg.Wait() has returned, all N tasks have executed
their wg.Done(): await does not return before all N signals have been
observed. -/
theorem await_returns_only_after_all_signals (N : Nat) (s : WgState N)
    (h : Reachable N s) (hw : s.waitReturned = true) :
    s.signaled = Finset.univ ∧ s.signaled.card = N := by
  obtain ⟨-, -, -, -, -, h6⟩ := reachable_inv h
  have hcard := (h6 hw).2
  exact ⟨Finset.eq_univ_of_card _ (hcard.trans (Fintype.card_fin N).symm), hcard⟩

/-- Witness for C1: with an empty batch (N = 0) the wait step fires at once
and the theorem applies to the resulting state. -/
theorem await_returns_only_after_all_signals_witness :
    Reachable 0 { initState 0 with waitReturned := true } ∧
    ({ initState 0 with waitReturned := true } : WgState 0).signaled =
      Finset.univ :=
  have hr : Reachable 0 { initState 0 with waitReturned := true } :=
    Reachable.step Reachable.init (WgTrans.wait (initState 0) rfl rfl rfl rfl)
  ⟨hr, (await_returns_only_after_all_signals 0 _ hr rfl).1⟩

/-- C4: the barrier counter is nonnegative in every reachable state of the
goroutinesWithWaitGroup pattern, in which the counter is incremented only by
the coordinator's register step (issued before the corresponding launch) and
decremented exactly once per task by its signal step. -/
theorem pending_nonneg (N : Nat) (s : WgState N) (h : Reachable N s) :
    0 ≤ s.counter := by
  obtain ⟨h1, -, -, h4, h5, -⟩ := reachable_inv h
  have hcard : s.signaled.card ≤ s.launches := card_le_of_forall_lt _ h4
  omega

/-- Witness for C4: the theorem applied to the initial state of a batch of
five tasks. -/
theorem pending_nonneg_witness : 0 ≤ (initState 5).counter :=
  pending_nonneg 5 (initState 5) Reachable.init

/-- C6: with an empty batch (zero registrations) the wait step of the
barrier fires immediately from the initial state, with no task step needed;
and in every reachable state in which wg.Wait() has already returned (and no
new registrations are possible after wait in this pattern), the counter is
zero, so a repeated await on the drained barrier returns immediately. -/
theorem await_immediate_when_drained :
    WgTrans 0 (initState 0) { initState 0 with waitReturned := true } ∧
    (∀ (N : Nat) (s : WgState N), Reachable N s → s.waitReturned = true →
      awaitReturnsImmediately s) := by
  constructor
  · exact WgTrans.wait (initState 0) rfl rfl rfl rfl
  · intro N s h hw
    obtain ⟨-, -, -, -, h5, h6⟩ := reachable_inv h
    obtain ⟨hreg, hcard⟩ := h6 hw
    unfold awaitReturnsImmediately
    omega

/-- Witness for C6: the drained empty-batch state is reachable and a
repeated await on it returns immediately. -/
theorem await_immediate_when_drained_witness :
    awaitReturnsImmediately ({ initState 0 with waitReturned := true } :
      WgState 0) :=
  await_immediate_when_drained.2 0 _
    (Reachable.step Reachable.init (WgTrans.wait (initState 0) rfl rfl rfl rfl))
    rfl

/-- C2: in every demo scenario, every wg.Add(1) is issued by the
coordinating goroutine immediately before the corresponding launch (never
after it, and never from inside the launched task body); in the three
WaitGroup scenarios moreover every launch is preceded by its register. -/
theorem register_precedes_launch_never_inside_task :
    registersPrecedeLaunch goroutinesWithWaitGroup = true ∧
    registersPrecedeLaunch goroutineRuntimeInfo = true ∧
    registersPrecedeLaunch anonymousGoroutines = true ∧
    registersPrecedeLaunch simpleGoroutine = true ∧
    registersPrecedeLaunch multipleGoroutines = true ∧
    launchesRegistered goroutinesWithWaitGroup = true ∧
    launchesRegistered goroutineRuntimeInfo = true ∧
    launchesRegistered anonymousGoroutines = true ∧
    noRegisterInsideTasks goroutinesWithWaitGroup = true ∧
    noRegisterInsideTasks goroutineRuntimeInfo = true ∧
    noRegisterInsideTasks anonymousGoroutines = true ∧
    noRegisterInsideTasks simpleGoroutine = true ∧
    noRegisterInsideTasks multipleGoroutines = true := by
  decide

/-- C5: the goroutine body used by every registered task in the WaitGroup
scenarios begins with `defer wg.Done()` — a scoped guaranteed-run-on-exit
release, not an explicit call at the end of the happy path — so on every
exit path of the body, including an early return inserted at any point
after the defer, the signal executes exactly once; and the launch bodies of
the three WaitGroup scenarios are exactly such bodies. -/
theorem signal_exactly_once_every_exit :
    (∀ (c : Capture) (k : Nat),
      signalCount (taskTrace (TStmt.deferAct TaskAct.signal ::
        insertRet k [TStmt.act (TaskAct.work c)])) = 1) ∧
    (∀ c : Capture, wgTaskBody c =
      TStmt.deferAct TaskAct.signal :: [TStmt.act (TaskAct.work c)]) ∧
    (∀ c : Capture, signalCount (taskTrace (wgTaskBody c)) = 1) ∧
    launchBodies goroutinesWithWaitGroup =
      orders.map (fun o => wgTaskBody (Capture.byValue o)) ∧
    launchBodies goroutineRuntimeInfo =
      List.replicate 5 (wgTaskBody Capture.loopVarRef) ∧
    launchBodies anonymousGoroutines =
      [wgTaskBody (Capture.byValue ⟨1, 2⟩), wgTaskBody (Capture.byValue ⟨2, 1⟩)] := by
  refine ⟨?_, fun c => rfl, fun c => rfl, rfl, rfl, rfl⟩
  intro c k
  cases k with
  | zero => rfl
  | succ k =>
      have h : insertRet (k + 1) [TStmt.act (TaskAct.work c)]
          = [TStmt.act (TaskAct.work c), TStmt.ret] := by
        unfold insertRet
        rw [List.take_succ_cons, List.take_nil, List.drop_succ_cons,
          List.drop_nil]
        rfl
      rw [h]
      rfl

/-- Witness for C5: an early return right after the defer still signals
exactly once. -/
theorem signal_exactly_once_every_exit_witness :
    signalCount (taskTrace (TStmt.deferAct TaskAct.signal ::
      insertRet 0 [TStmt.act (TaskAct.work Capture.loopVarRef)])) = 1 :=
  signal_exactly_once_every_exit.1 Capture.loopVarRef 0

/-- Counterexample to C3 as stated: in goroutineRuntimeInfo the launched
tasks do not receive a private by-value copy of their descriptor — every
closure references the loop-owned slot — and under the schedule in which
every task reads the slot only after the loop has finished (the slot then
holds the last descriptor {5, 2}), all five tasks observe {5, 2}, so the
multiset of observed descriptors differs from the input batch. -/
theorem runtimeInfo_captures_loop_variable :
    launchCaptures goroutineRuntimeInfo ≠ orders.map Capture.byValue ∧
    observedUnder goroutineRuntimeInfo (fun _ => ⟨5, 2⟩) =
      List.replicate 5 (⟨5, 2⟩ : Order) ∧
    ¬ (observedUnder goroutineRuntimeInfo (fun _ => ⟨5, 2⟩)).Perm orders := by
  refine ⟨by decide, rfl, by decide⟩

/-- C3 amended: in goroutinesWithWaitGroup (and anonymousGoroutines) each
task receives its own descriptor as a private by-value copy at launch time,
so under every schedule the observed descriptor list equals the input batch
exactly; goroutineRuntimeInfo instead captures the loop variable by
reference in all five launched closures. -/
theorem parameter_association_amended :
    launchCaptures goroutinesWithWaitGroup = orders.map Capture.byValue ∧
    (∀ slot : Nat → Order, observedUnder goroutinesWithWaitGroup slot = orders) ∧
    launchCaptures anonymousGoroutines =
      [Capture.byValue ⟨1, 2⟩, Capture.byValue ⟨2, 1⟩] ∧
    launchCaptures goroutineRuntimeInfo = List.replicate 5 Capture.loopVarRef :=
  ⟨rfl, fun _ => rfl, rfl, rfl⟩

/-- Witness for C3 amended: even when the loop slot ends at the last
descriptor, the by-value scenario observes the input batch exactly. -/
theorem parameter_association_amended_witness :
    observedUnder goroutinesWithWaitGroup (fun _ => (⟨5, 2⟩ : Order)) = orders :=
  parameter_association_amended.2.1 (fun _ => ⟨5, 2⟩)

/-- Counterexample to C7 as stated: the repository does reproduce the
sleep-based waiting variants — in scenarios simpleGoroutine and
multipleGoroutines the coordinator resumes by sleeping a fixed duration and
never blocks on the barrier. -/
theorem sleep_wait_variants_present :
    usesSleepWait simpleGoroutine = true ∧ usesAwait simpleGoroutine = false ∧
    usesSleepWait multipleGoroutines = true ∧
    usesAwait multipleGoroutines = false := by
  decide

/-- C7 amended: the barrier-based scenarios contain no fixed-sleep waiting
and block on the barrier instead, while the sleep-based anti-pattern
variants are present in the repository as the scenarios simpleGoroutine and
multipleGoroutines. -/
theorem barrier_scenarios_no_sleep_wait :
    usesSleepWait goroutinesWithWaitGroup = false ∧
    usesAwait goroutinesWithWaitGroup = true ∧
    usesSleepWait anonymousGoroutines = false ∧
    usesAwait anonymousGoroutines = true ∧
    usesSleepWait goroutineRuntimeInfo = false ∧
    usesAwait goroutineRuntimeInfo = true ∧
    usesSleepWait simpleGoroutine = true ∧
    usesSleepWait multipleGoroutines = true := by
  decide

/-- Once a WaitGroup contract violation has been raised, further operations
leave the error in place. -/
theorem wgApply_error (e : String) (ops : List WgOp) :
    ops.foldl wgApply (Except.error e) = Except.error e := by
  induction ops with
  | nil => rfl
  | cons op rest ih =>
      rw [List.foldl_cons]
      exact ih

/-- Running k registrations from a nonnegative counter c succeeds and yields
c + k. -/
theorem wgRun_adds (k : Nat) (c : Int) (hc : 0 ≤ c) :
    (List.replicate k WgOp.add1).foldl wgApply (Except.ok c) =
      Except.ok (c + k) := by
  induction k generalizing c with
  | zero => simp
  | succ k ih =>
      rw [List.replicate_succ, List.foldl_cons]
      have hstep : wgApply (Except.ok c) WgOp.add1 = Except.ok (c + 1) := by
        show wgAdd c 1 = Except.ok (c + 1)
        unfold wgAdd
        rw [if_neg (by omega)]
      rw [hstep, ih (c + 1) (by omega)]
      congr 1
      push_cast
      ring

/-- Running more signals than the counter holds raises the contract
violation. -/
theorem wgRun_dones_over (m : Nat) (c : Int) (hc0 : 0 ≤ c) (hcm : c < m) :
    (List.replicate m WgOp.done1).foldl wgApply (Except.ok c) =
      Except.error "sync: negative WaitGroup counter" := by
  induction m generalizing c with
  | zero =>
      exfalso
      push_cast at hcm
      omega
  | succ m ih =>
      rw [List.replicate_succ, List.foldl_cons]
      by_cases h0 : c = 0
      · have hstep : wgApply (Except.ok c) WgOp.done1 =
            Except.error "sync: negative WaitGroup counter" := by
          show wgAdd c (-1) = _
          unfold wgAdd
          rw [if_pos (by omega)]
        rw [hstep]
        exact wgApply_error _ _
      · have hstep : wgApply (Except.ok c) WgOp.done1 = Except.ok (c - 1) := by
          show wgAdd c (-1) = Except.ok (c - 1)
          unfold wgAdd
          rw [if_neg (by omega)]
          congr 1
        rw [hstep]
        refine ih (c - 1) (by omega) (by push_cast at hcm ⊢; omega)

/-- Every successful run of WaitGroup operations ends with a nonnegative
counter. -/
theorem wgRun_ok_nonneg (ops : List WgOp) :
    ∀ c0 : Int, 0 ≤ c0 → ∀ c : Int,
      ops.foldl wgApply (Except.ok c0) = Except.ok c → 0 ≤ c := by
  induction ops with
  | nil =>
      intro c0 h0 c hc
      rw [List.foldl_nil] at hc
      cases hc
      exact h0
  | cons op rest ih =>
      intro c0 h0 c hc
      rw [List.foldl_cons] at hc
      by_cases hneg : c0 + wgDelta op < 0
      · have happ : wgApply (Except.ok c0) op =
            Except.error "sync: negative WaitGroup counter" := by
          show wgAdd c0 (wgDelta op) = _
          unfold wgAdd
          rw [if_pos hneg]
        rw [happ, wgApply_error] at hc
        exact absurd hc (by simp)
      · have happ : wgApply (Except.ok c0) op =
            Except.ok (c0 + wgDelta op) := by
          show wgAdd c0 (wgDelta op) = _
          unfold wgAdd
          rw [if_neg hneg]
        rw [happ] at hc
        exact ih (c0 + wgDelta op) (Int.not_lt.mp hneg) c hc

/-- C8: issuing more wg.Done() calls than wg.Add(1) calls raises the
WaitGroup contract-violation error (in Go, a panic) rather than silently
producing a negative counter: any run of k registrations followed by m > k
signals ends in the error, and no successful run ever exposes a negative
counter. -/
theorem over_signal_detected (k m : Nat) (h : k < m) :
    wgRun (List.replicate k WgOp.add1 ++ List.replicate m WgOp.done1) =
      Except.error "sync: negative WaitGroup counter" ∧
    ∀ (ops : List WgOp) (c : Int), wgRun ops = Except.ok c → 0 ≤ c := by
  constructor
  · unfold wgRun
    rw [List.foldl_append, wgRun_adds k 0 le_rfl]
    exact wgRun_dones_over m (0 + k) (by omega) (by omega)
  · intro ops c hc
    exact wgRun_ok_nonneg ops 0 le_rfl c hc

/-- Witness for C8: one registration followed by two signals raises the
contract violation. -/
theorem over_signal_detected_witness :
    wgRun (List.replicate 1 WgOp.add1 ++ List.replicate 2 WgOp.done1) =
      Except.error "sync: negative WaitGroup counter" :=
  (over_signal_detected 1 2 (by decide)).1

/-- C9: in the idealized timed semantics (work of d seconds takes d units,
coordinator bookkeeping is instantaneous), the batch of 5 tasks with delays
{2,3,1,4,2} launched by goroutinesWithWaitGroup completes at
max(delays) = 4 units, while the sequential driver over the same orders
takes sum(delays) = 12 units — the tasks genuinely overlap. The result does
not depend on the loop-slot value because every capture is by value. -/
theorem concurrent_time_is_max_not_sum :
    ∀ slot : Order,
      completionTime slot goroutinesWithWaitGroup =
        (orders.map Order.prepTime).foldr max 0 ∧
      completionTime slot sequentialProcessing =
        (orders.map Order.prepTime).sum ∧
      completionTime slot goroutinesWithWaitGroup = 4 ∧
      completionTime slot sequentialProcessing = 12 :=
  fun _ => ⟨rfl, rfl, rfl, rfl⟩

/-- Witness for C9: evaluated with the loop slot at the last order. -/
theorem concurrent_time_is_max_not_sum_witness :
    completionTime ⟨5, 2⟩ goroutinesWithWaitGroup = 4 ∧
    completionTime ⟨5, 2⟩ sequentialProcessing = 12 :=
  ⟨(concurrent_time_is_max_not_sum ⟨5, 2⟩).2.2.1,
   (concurrent_time_is_max_not_sum ⟨5, 2⟩).2.2.2⟩

/-- The sequential driver's fold-accumulated trace is the concatenation of
the per-order call traces. -/
theorem seqMainTrace_eq_flatMap (os : List Order) :
    seqMainTrace os = os.flatMap processOrderTrace := by
  suffices h : ∀ (acc : List Ev) (os : List Order),
      os.foldl (fun acc o => acc ++ processOrderTrace o) acc =
        acc ++ os.flatMap processOrderTrace by
    simpa using h [] os
  intro acc os
  induction os generalizing acc with
  | nil => simp
  | cons o rest ih =>
      rw [List.foldl_cons, ih, List.flatMap_cons, List.append_assoc]

/-- A concatenation of processOrder call traces is well nested: each started
order finishes before the next starts. -/
theorem seqNested_flatMap (os : List Order) :
    SeqNested (os.flatMap processOrderTrace) := by
  induction os with
  | nil => exact SeqNested.nil
  | cons o rest ih => exact SeqNested.cons o.id o.prepTime ih

/-- C10: the sequential driver invokes processOrder exactly once per order
of its input list, in the list's order, and each invocation (with its full
simulated delay) completes before the next begins: its trace is a
concatenation of matching start/finish pairs, the started ids are exactly
the input ids in order with no repetition, and on the canned batch the
trace is the expected ten events. -/
theorem sequential_driver_trace :
    (∀ os : List Order, SeqNested (seqMainTrace os)) ∧
    (seqMainTrace orders).filterMap evStartId = orders.map Order.id ∧
    orders.map Order.id = [1, 2, 3, 4, 5] ∧
    (orders.map Order.id).Nodup ∧
    seqMainTrace orders =
      [Ev.start 1, Ev.finish 1 2, Ev.start 2, Ev.finish 2 3, Ev.start 3,
       Ev.finish 3 1, Ev.start 4, Ev.finish 4 4, Ev.start 5, Ev.finish 5 2] := by
  refine ⟨?_, by decide, by decide, by decide, by decide⟩
  intro os
  rw [seqMainTrace_eq_flatMap]
  exact seqNested_flatMap os

/-- Witness for C10: the canned batch's trace is well nested. -/
theorem sequential_driver_trace_witness : SeqNested (seqMainTrace orders) :=
  sequential_driver_trace.1 orders
